import Mathlib

/-!
Shallow embedding of the `Module` and `Ship` entity classes of the ed-forge
ship-build library (files `Module.js` and `Ship.js`), together with proofs
about the behaviour those entities are specified to have.

Modelling conventions:

* JS objects become Lean structures over the typed record shapes of the data
  model (`ModuleObject`, `ShipObject`, ...).  `cloneDeep` of an immutable Lean
  value is the identity, so deep copies are modelled by plain value copies.
* The external collaborators (`validateModuleJson`, `validateShipJson`,
  `decompress`, `getModuleProperty`, `itemFitsSlot`, the slot-family regexes)
  are opaque to the two classes; they are passed around as plain functions in
  an `Externals` record, so theorems quantify over their behaviour.
* A JS `throw` becomes an `Except` error result.  The repository's two error
  classes are `IllegalStateError` and `ImportExportError`; a JS runtime
  `TypeError` (e.g. reading a property of `undefined`) is modelled by the
  extra constructor `TypeError`.
* Stateful methods return the updated entity next to their JS return value.
-/

namespace EDForge

/-- Raw engineering modifier record: `{ Label, Value }`.  The JS `Value` is a
number that the two classes only ever store, compare and return (never
compute with), so an integer carrier is an adequate stand-in. -/
structure Modifier where
  Label : String
  Value : Int
deriving DecidableEq

/-- Raw blueprint record: `{ Engineer, BlueprintName, Level, Quality, Modifiers }`. -/
structure Blueprint where
  Engineer : String
  BlueprintName : String
  Level : Int
  Quality : Int
  Modifiers : List Modifier
deriving DecidableEq

/-- Raw module record: `{ Slot, On, Item, Priority, Engineering? }`.  The
optional `Engineering` block is `none` when the key is absent. -/
structure ModuleObject where
  Slot : String
  On : Bool
  Item : String
  Priority : Int
  Engineering : Option Blueprint
deriving DecidableEq

/-- The `Module` entity: wraps one raw module record (`this._object`) and a
nullable back-reference to the owning ship (`this._ship`).  The only part of
the owning ship the `Module` code ever reads is `this._ship._object.Ship`
(the hull type), so the back-reference is modelled as that string, following
the spec's design note that an owning-ship handle is an acceptable
representation of the non-owning cyclic reference. -/
structure Module where
  _object : ModuleObject
  _ship : Option String
deriving DecidableEq

/-- Raw ship record: `{ Ship, ShipName, ShipIdent, Modules }` with `Modules`
a list of raw module records. -/
structure ShipObject where
  Ship : String
  ShipName : String
  ShipIdent : String
  Modules : List ModuleObject
deriving DecidableEq

/-- The `Modules` field of a ship entity's wrapped document.  It normally
holds the owned `Module` entities; during `Ship.toJSON` the JS code
temporarily overwrites it with the list of raw records before restoring it,
so the field is a sum of the two shapes. -/
inductive ModulesField where
  | entities (ms : List Module)
  | jsons (os : List ModuleObject)
deriving DecidableEq

/-- A ship entity's wrapped document (`this._object` of `Ship`). -/
structure ShipDoc where
  Ship : String
  ShipName : String
  ShipIdent : String
  Modules : ModulesField
deriving DecidableEq

/-- One capacitor setting of the power distributor state. -/
structure DistributorSetting where
  base : Int
  mc : Int
deriving DecidableEq

/-- Power distributor runtime state. -/
structure DistributorState where
  Sys : DistributorSetting
  Eng : DistributorSetting
  Wep : DistributorSetting
deriving DecidableEq

/-- Runtime state of a ship entity (`this.state`). -/
structure ShipState where
  PowerDistributor : DistributorState
  Cargo : Int
  Fuel : Int
deriving DecidableEq

/-- The `Ship` entity: the wrapped document plus runtime state. -/
structure Ship where
  _object : ShipDoc
  state : ShipState
deriving DecidableEq

/-- The errors observable from the two classes: the repository's
`IllegalStateError` and `ImportExportError`, plus the JS runtime `TypeError`
(raised e.g. by reading a property of `undefined`). -/
inductive ErrorKind where
  | IllegalStateError
  | ImportExportError
  | TypeError
deriving DecidableEq

/-- The external collaborators consumed by the two classes, bundled as plain
functions.  `decompressModule` / `decompressShip` stand for `decompress`
applied to a compact module / ship code; `regInternalSlot` and
`regMilitarySlot` are the match tests of the external regexes
`REG_INTERNAL_SLOT` and `REG_MILITARY_SLOT`. -/
structure Externals where
  validateModuleJson : ModuleObject → Bool
  validateShipJson : ShipObject → Bool
  decompressModule : String → ModuleObject
  decompressShip : String → ShipObject
  getModuleProperty : String → String → Option Int
  itemFitsSlot : String → String → String → Bool
  regInternalSlot : String → Bool
  regMilitarySlot : String → Bool

/-- A `ModuleLike` build input: an existing `Module` entity, a
compact-encoded string, or a raw module record. -/
inductive ModuleLike where
  | module (m : Module)
  | compressed (s : String)
  | raw (o : ModuleObject)

/-- A ship build input: a compact-encoded string or a raw ship record. -/
inductive ShipLike where
  | compressed (s : String)
  | raw (o : ShipObject)

/-- Lodash `map` over a callback running in an effect (a callback that may
throw becomes `Except`, one that may exhaust the stack becomes `Option`):
the results are collected in order and the first failure aborts the whole
map, as JS exception propagation does. -/
def mapCallback {M : Type → Type} [Monad M] {α β : Type} (f : α → M β) : List α → M (List β)
  | [] => pure []
  | a :: l => do
    let b ← f a
    let bs ← mapCallback f l
    pure (b :: bs)

/-- `Module.prototype.toJSON`: `return cloneDeep(this._object)`; a deep copy
of an immutable value is the value itself. -/
def Module.toJSON (m : Module) : ModuleObject :=
  m._object

/-- `cloneModuleToJSON(module)` (Module.js, lines 45-60): a `Module` entity
is serialized via its own `toJSON` and is NOT validated; a string is
decompressed first; a non-entity input is deep-copied and must pass
`validateModuleJson`, else an `ImportExportError` is thrown. -/
def cloneModuleToJSON (ext : Externals) : ModuleLike → Except ErrorKind ModuleObject
  | .module m => .ok (Module.toJSON m)
  | .compressed s =>
    let o := ext.decompressModule s
    if ext.validateModuleJson o then .ok o else .error .ImportExportError
  | .raw o =>
    if ext.validateModuleJson o then .ok o else .error .ImportExportError

/-- Modelled from the spec: the body of `Module.prototype.clear`, which the
constructor invokes when no `buildFrom` argument is given, is not among the
provided sources (only its call site is).  Per the spec, the entity then
"initializes to an empty placeholder record
(`Slot=""`, `Item=""`, `On=false`, `Priority=0`, no Engineering)". -/
def Module.clearObject : ModuleObject :=
  { Slot := "", On := false, Item := "", Priority := 0, Engineering := none }

/-- The `Module` constructor (Module.js, lines 71-87): with no `buildFrom`
the wrapped record is cleared to the empty placeholder, otherwise it is
produced by `cloneModuleToJSON` (which may throw); the optional `ship`
back-reference is attached when given. -/
def Module.construct (ext : Externals) (buildFrom : Option ModuleLike)
    (ship : Option String) : Except ErrorKind Module :=
  match buildFrom with
  | none => .ok { _object := Module.clearObject, _ship := ship }
  | some bf => (cloneModuleToJSON ext bf).map fun o => { _object := o, _ship := ship }

/-- Lodash `assign(fresh, pick(old, keep))` on the five known module-record
fields: each field named in `keep` is taken from `old`, the rest from
`fresh`.  `pick` only copies keys that exist on `old`, so an absent
`Engineering` block is not overlaid. -/
def assignPick (old fresh : ModuleObject) (keep : List String) : ModuleObject :=
  { Slot := if keep.contains "Slot" then old.Slot else fresh.Slot
    On := if keep.contains "On" then old.On else fresh.On
    Item := if keep.contains "Item" then old.Item else fresh.Item
    Priority := if keep.contains "Priority" then old.Priority else fresh.Priority
    Engineering :=
      if keep.contains "Engineering" && old.Engineering.isSome then old.Engineering
      else fresh.Engineering }

/-- `Module.prototype.update(buildFrom, keep)` (Module.js, lines 93-99):
replace the wrapped record with `cloneModuleToJSON(buildFrom)`, then, when
`keep` is given, overlay the kept fields of the previous record. -/
def Module.update (ext : Externals) (m : Module) (buildFrom : ModuleLike)
    (keep : Option (List String)) : Except ErrorKind Module :=
  (cloneModuleToJSON ext buildFrom).map fun o =>
    { m with _object := match keep with
        | none => o
        | some ks => assignPick m._object o ks }

/-- `Module.prototype._findModifier(property)` (Module.js, lines 139-147):
`Array.prototype.find` over the blueprint's modifiers — it returns the first
matching `Modifier` OBJECT (not its index), or `undefined`. -/
def Module._findModifier (m : Module) (property : String) : Option Modifier :=
  match m._object.Engineering with
  | none => none
  | some eng => eng.Modifiers.find? fun modifier => modifier.Label == property

/-- `Module.prototype.get(property, modified)` (Module.js, lines 128-134) as
written: `modifierIndex` is the `Modifier` object returned by
`_findModifier`.  When `modified` is true and that object exists, the code
evaluates `this._object.Engineering.Modifiers[modifierIndex].value`: the
object used as an array index coerces to the string key
"[object Object]", no element of the array, so the lookup yields
`undefined`, and reading `.value` of `undefined` throws a JS `TypeError`.
Otherwise the external base-stat lookup is returned. -/
def Module.get (ext : Externals) (m : Module) (property : String)
    (modified : Bool) : Except ErrorKind (Option Int) :=
  let modifierIndex := m._findModifier property
  if modified && modifierIndex.isSome then
    .error .TypeError
  else
    .ok (ext.getModuleProperty m._object.Item property)

/-- `Module.prototype.set(property, value)` (Module.js, lines 164-182) as
written: with no blueprint an `IllegalStateError` is thrown.  With a
blueprint, `modifierIndex` is again the found `Modifier` OBJECT; when one
exists the code assigns `Modifiers[modifierIndex].Value = value`, and the
same object-as-index coercion makes `Modifiers["[object Object]"]`
`undefined`, so the assignment throws a JS `TypeError`.  When no modifier
with that label exists, a fresh `{Label, Value}` entry is pushed and `true`
is returned. -/
def Module.set (m : Module) (property : String) (value : Int) :
    Except ErrorKind (Module × Bool) :=
  match m._object.Engineering with
  | none => .error .IllegalStateError
  | some eng =>
    match m._findModifier property with
    | some _ => .error .TypeError
    | none =>
      let eng' := { eng with Modifiers := eng.Modifiers ++ [{ Label := property, Value := value }] }
      .ok ({ m with _object := { m._object with Engineering := some eng' } }, true)

/-- A slot descriptor, the polymorphic argument of `isOnSlot`: an exact slot
name, a regex (modelled by its match test), or an array of descriptors. -/
inductive SlotDescr where
  | exact (s : String)
  | pattern (test : String → Bool)
  | anyOf (l : List SlotDescr)

mutual

/-- Matching of a (non-empty) slot name against a slot descriptor, the body
of the `if (this._object.Slot)` branch of `isOnSlot` (Module.js, lines
220-237): a string input requires equality, a regex input a match, an array
input that some element matches.  (The recursive `this.isOnSlot(s)` calls of
the JS array loop run on the same module, whose non-empty `Slot` is
unchanged, so they reduce to this matcher.) -/
def matchDescr (slotName : String) : SlotDescr → Bool
  | .exact s => slotName == s
  | .pattern test => test slotName
  | .anyOf l => matchAny slotName l

/-- The `for (let s of slot) { if (this.isOnSlot(s)) return true } return
false` loop of `isOnSlot`, short-circuiting at the first match. -/
def matchAny (slotName : String) : List SlotDescr → Bool
  | [] => false
  | d :: rest => matchDescr slotName d || matchAny slotName rest

end

/-- `Module.prototype.isOnSlot(slot)` (Module.js, lines 220-237): when the
module's `Slot` is non-empty (truthy) the descriptor is matched against it;
when the module has no slot assigned, `null` (here `none`) is returned for
every descriptor shape. -/
def Module.isOnSlot (m : Module) (slot : SlotDescr) : Option Bool :=
  if m._object.Slot ≠ "" then some (matchDescr m._object.Slot slot) else none

/-- `Module.prototype.isEmpty`: `return this._object.Item === ''`. -/
def Module.isEmpty (m : Module) : Bool :=
  m._object.Item == ""

/-- `Module.prototype.setSlot(slot)` (Module.js, lines 259-274): throws
`IllegalStateError` when no ship back-reference is attached, then throws
`IllegalStateError` when `Slot` is already non-empty (truthy); otherwise the
slot is written when the module has no `Item` (falsy) or the external fit
checker accepts `(Item, ship hull, slot)` — and when the checker rejects,
the method silently returns with the module unchanged. -/
def Module.setSlot (ext : Externals) (m : Module) (slot : String) :
    Except ErrorKind Module :=
  match m._ship with
  | none => .error .IllegalStateError
  | some shipType =>
    if m._object.Slot ≠ "" then
      .error .IllegalStateError
    else if m._object.Item == "" || ext.itemFitsSlot m._object.Item shipType slot then
      .ok { m with _object := { m._object with Slot := slot } }
    else
      .ok m

/-- The default runtime state initialized by the `Ship` constructor
(Ship.js, lines 395-403): distributor pips `{base: 2, mc: 0}` for all three
capacitors, zero cargo, full fuel. -/
def defaultState : ShipState :=
  { PowerDistributor :=
      { Sys := { base := 2, mc := 0 }
        Eng := { base := 2, mc := 0 }
        Wep := { base := 2, mc := 0 } }
    Cargo := 0
    Fuel := 1 }

/-- The `Ship` constructor (Ship.js, lines 390-418): decode a string input,
throw `ImportExportError` unless `validateShipJson` accepts, deep-copy the
record, then replace each raw module record by `new Module(moduleObject,
this)` — each of which re-validates its record via `cloneModuleToJSON` and
may itself throw.  The back-reference handed to each module is this ship's
hull type (`this._object.Ship`). -/
def Ship.construct (ext : Externals) (buildFrom : ShipLike) : Except ErrorKind Ship :=
  let bf := match buildFrom with
    | .compressed s => ext.decompressShip s
    | .raw o => o
  if !ext.validateShipJson bf then
    .error .ImportExportError
  else
    (mapCallback (fun moduleObject => Module.construct ext (some (.raw moduleObject)) (some bf.Ship))
        bf.Modules).map fun ms =>
      { _object := { Ship := bf.Ship, ShipName := bf.ShipName, ShipIdent := bf.ShipIdent,
                     Modules := .entities ms }
        state := defaultState }

/-- Lodash `map(_modules, m => m.toJSON())` over whatever the `Modules`
field currently holds.  The field holds `Module` entities whenever `toJSON`
is callable (the `jsons` shape exists only transiently inside `toJSON`
itself), and on entities the map serializes each one. -/
def ModulesField.toJSONList : ModulesField → List ModuleObject
  | .entities ms => ms.map Module.toJSON
  | .jsons os => os

/-- `Ship.prototype.toJSON` (Ship.js, lines 762-768), step by step: save the
`Modules` field, overwrite it with the mapped `toJSON` list, shallow-`clone`
the document (the clone's `Modules` is the freshly mapped list), restore the
saved field, and return the clone.  The result pairs the returned record
with the entity as the method leaves it. -/
def Ship.toJSON (s : Ship) : ShipObject × Ship :=
  let _modules := s._object.Modules
  let s1 : Ship := { s with _object := { s._object with Modules := .jsons _modules.toJSONList } }
  let r : ShipObject :=
    { Ship := s1._object.Ship, ShipName := s1._object.ShipName,
      ShipIdent := s1._object.ShipIdent, Modules := s1._object.Modules.toJSONList }
  let s2 : Ship := { s1 with _object := { s1._object with Modules := _modules } }
  (r, s2)

/-- The owned entity collection behind `this._object.Modules`.  Outside the
transient interior of `toJSON` the field always has the `entities` shape. -/
def Ship.modulesList (s : Ship) : List Module :=
  match s._object.Modules with
  | .entities ms => ms
  | .jsons _ => []

/-- Lodash `sortBy` called with NO iteratee, as in `ms.sortBy()`
(Ship.js, line 504): each element is its own sort key.  Lodash
`compareAscending` on two `Module` objects finds neither `value > other`
nor `value < other` (both operands coerce to the string
"[object Object]"), so every comparison yields 0 and the stable sort
returns the list in its original order.  The net effect is the identity. -/
def sortByNoIteratee (ms : List Module) : List Module :=
  ms

/-- Lodash `uniq`, which deduplicates by SameValueZero — reference identity
for objects.  The `Modules` collection holds pairwise-distinct `Module`
objects (each produced by its own `new Module`), and the filters preserve
that, so `uniq` returns its input unchanged. -/
def uniqByReference (ms : List Module) : List Module :=
  ms

/-- `Ship.prototype.getModules(slots, type, includeEmpty, sort)` (Ship.js,
lines 493-508): filter the owned modules by `module.isOnSlot(slots)`
(truthy only for `true`; both `false` and `null` drop the module), then by
an item-type regex when given, then drop empty modules unless
`includeEmpty`, then `ms.sortBy()` when `sort` — the no-iteratee sort above
— and finally `uniq`. -/
def Ship.getModules (s : Ship) (slots : SlotDescr) (type : Option (String → Bool))
    (includeEmpty : Bool) (sort : Bool) : List Module :=
  let ms := s.modulesList.filter fun module => (module.isOnSlot slots).getD false
  let ms := match type with
    | some t => ms.filter fun m => t m._object.Item
    | none => ms
  let ms := if !includeEmpty then ms.filter fun m => !m.isEmpty else ms
  let ms := if sort then sortByNoIteratee ms else ms
  uniqByReference ms

/-- `Ship.prototype.getInternals(type, includeEmpty)` (Ship.js, lines
631-635): the modules on slots matching `REG_INTERNAL_SLOT`, then those on
slots matching `REG_MILITARY_SLOT`, concatenated, each group produced by
`getModules` with `sort = true`. -/
def Ship.getInternals (ext : Externals) (s : Ship) (type : Option (String → Bool))
    (includeEmpty : Bool) : List Module :=
  let ms := s.getModules (.pattern ext.regInternalSlot) type includeEmpty true
  let militaryMs := s.getModules (.pattern ext.regMilitarySlot) type includeEmpty true
  ms ++ militaryMs

/-- The JS value returned by a call of `setCoreModules` if the recursion
ever returned: lodash `map` yields an array of the callback's results, each
itself such an array. -/
inductive JsRet where
  | arr (elems : List JsRet)

/-- `Ship.prototype.setCoreModules(modules)` (Ship.js, lines 532-534) as
written: `map(modules, module => this.setCoreModules([module]))` — the
callback recursively invokes `setCoreModules` itself (not `setCoreModule`)
on the singleton `[module]`.  The ship state is never consulted.  Each call
consumes one stack frame, modelled by explicit fuel; `none` is the stack
overflow that exhausting any finite call stack produces. -/
def setCoreModulesFuel : Nat → List ModuleLike → Option JsRet
  | 0, _ => none
  | fuel + 1, modules =>
    (mapCallback (fun module => setCoreModulesFuel fuel [module]) modules).map .arr

/-! ## Helper lemmas and concrete fixtures -/

/-- A `mapCallback` over `Except` whose callback succeeds pointwise succeeds
with the pointwise results. -/
theorem mapCallback_ok {α β : Type} (f : α → Except ErrorKind β) (g : α → β) :
    ∀ l : List α, (∀ a ∈ l, f a = .ok (g a)) → mapCallback f l = .ok (l.map g) := by
  intro l
  induction l with
  | nil => intro _; rfl
  | cons a l ih =>
    intro h
    have ha := h a (by simp)
    have hl := ih fun b hb => h b (by simp [hb])
    simp only [mapCallback, ha, hl, List.map_cons]
    rfl

/-- The array loop of `isOnSlot` computes the `any`-of-matches semantics. -/
theorem matchAny_eq_any (slotName : String) :
    ∀ l : List SlotDescr, matchAny slotName l = l.any fun d => matchDescr slotName d := by
  intro l
  induction l with
  | nil => rfl
  | cons d rest ih => simp [matchAny, ih]

/-- String comparison on the underlying character lists (the ascending order
"sorted by slot name" refers to). -/
def charListLt : List Char → List Char → Bool
  | [], [] => false
  | [], _ :: _ => true
  | _ :: _, [] => false
  | a :: as, b :: bs => if a = b then charListLt as bs else decide (a < b)

/-- Strict ascending order on strings, character by character. -/
def strLt (a b : String) : Bool :=
  charListLt a.data b.data

/-- A benign instantiation of the external collaborators: both validators
accept everything, the base-stat lookup returns 7, items fit every slot, and
the internal-slot regex matches the two slot names used by the fixtures. -/
def exTriv : Externals :=
  { validateModuleJson := fun _ => true
    validateShipJson := fun _ => true
    decompressModule := fun _ => Module.clearObject
    decompressShip := fun _ => { Ship := "", ShipName := "", ShipIdent := "", Modules := [] }
    getModuleProperty := fun _ _ => some 7
    itemFitsSlot := fun _ _ _ => true
    regInternalSlot := fun s => s == "Slot05_Size3" || s == "Slot01_Size2"
    regMilitarySlot := fun _ => false }

/-- Like `exTriv` but the fit checker rejects every combination. -/
def exNoFit : Externals :=
  { exTriv with itemFitsSlot := fun _ _ _ => false }

/-- A raw internal-slot module record on slot `Slot05_Size3`. -/
def moA : ModuleObject :=
  { Slot := "Slot05_Size3", On := true, Item := "int_cargorack_size3_class1", Priority := 0,
    Engineering := none }

/-- A raw internal-slot module record on slot `Slot01_Size2`. -/
def moB : ModuleObject :=
  { Slot := "Slot01_Size2", On := true, Item := "int_fuelscoop_size2_class1", Priority := 0,
    Engineering := none }

/-- The entity for `moA`, owned by an anaconda hull. -/
def mA : Module := { _object := moA, _ship := some "anaconda" }

/-- The entity for `moB`, owned by an anaconda hull. -/
def mB : Module := { _object := moB, _ship := some "anaconda" }

/-- A concrete ship entity whose collection holds `mA` before `mB`: the
collection order is descending in slot name. -/
def shipAB : Ship :=
  { _object := { Ship := "anaconda", ShipName := "N", ShipIdent := "I",
                 Modules := .entities [mA, mB] }
    state := defaultState }

/-- A concrete raw ship record with two modules. -/
def xAB : ShipObject :=
  { Ship := "anaconda", ShipName := "N", ShipIdent := "I", Modules := [moA, moB] }

/-- A blueprint with an empty modifier list. -/
def bpEmpty : Blueprint :=
  { Engineer := "Felicity Farseer", BlueprintName := "Engine_Dirty", Level := 1, Quality := 1,
    Modifiers := [] }

/-- A module carrying `bpEmpty`, the starting point of the `set`/`get`
evaluation. -/
def mEng : Module :=
  { _object := { Slot := "MainEngines", On := true, Item := "int_engine_size4_class2",
                 Priority := 0, Engineering := some bpEmpty }
    _ship := none }

/-- The blueprint of `mEng` after `set('Mass', 5)`: the fresh modifier is
appended. -/
def bpSet : Blueprint :=
  { bpEmpty with Modifiers := [{ Label := "Mass", Value := 5 }] }

/-- `mEng` after `set('Mass', 5)`. -/
def mEngSet : Module :=
  { mEng with _object := { mEng._object with Engineering := some bpSet } }

/-- A module with a non-empty slot and an attached ship, for the write-once
witness. -/
def mAssigned : Module :=
  { _object := { Slot := "Slot04_Size3", On := true, Item := "int_cargorack_size3_class1",
                 Priority := 0, Engineering := none }
    _ship := some "anaconda" }

/-- A module with an item but no slot yet, for the fit-policy witness. -/
def mUnassigned : Module :=
  { _object := { Slot := "", On := true, Item := "int_cargorack_size3_class1",
                 Priority := 0, Engineering := none }
    _ship := some "anaconda" }

/-! ## The claims -/

/-- C1: for every raw ship record accepted by `validateShipJson` (whose
module records, as in any schema-valid build, are accepted by
`validateModuleJson`), constructing the ship succeeds and `toJSON()` returns
a record structurally equal to the input, its `Modules` entries being
exactly the owned `Module` entities' own `toJSON()` values, in order. -/
theorem ship_toJSON_roundtrip (ext : Externals) (x : ShipObject)
    (h1 : ext.validateShipJson x = true)
    (h2 : ∀ mo ∈ x.Modules, ext.validateModuleJson mo = true) :
    ∃ s : Ship, Ship.construct ext (.raw x) = .ok s ∧
      s._object.Modules =
        .entities (x.Modules.map fun mo => { _object := mo, _ship := some x.Ship }) ∧
      (Ship.toJSON s).1 = x ∧
      (Ship.toJSON s).1.Modules =
        (x.Modules.map fun mo => ({ _object := mo, _ship := some x.Ship } : Module)).map
          Module.toJSON := by
  obtain ⟨S, SN, SI, Ms⟩ := x
  have hmap : mapCallback
      (fun moduleObject => Module.construct ext (some (.raw moduleObject)) (some S)) Ms =
      .ok (Ms.map fun mo => { _object := mo, _ship := some S }) := by
    refine mapCallback_ok _ _ Ms fun mo hmo => ?_
    have := h2 mo hmo
    simp only [Module.construct, cloneModuleToJSON]
    simp [this, Except.map]
  refine ⟨{ _object := { Ship := S, ShipName := SN, ShipIdent := SI,
                         Modules := .entities (Ms.map fun mo => { _object := mo, _ship := some S }) },
            state := defaultState }, ?_, ?_, ?_, ?_⟩
  · simp only [Ship.construct, h1]
    simp [hmap, Except.map]
  · rfl
  · have hid : (Module.toJSON ∘ fun mo => ({ _object := mo, _ship := some S } : Module)) = id :=
      rfl
    simp [Ship.toJSON, ModulesField.toJSONList, List.map_map, hid]
  · rfl

/-- C1 witness: the round trip evaluated on the concrete build `xAB`. -/
theorem ship_toJSON_roundtrip_witness :
    ∃ s : Ship, Ship.construct exTriv (.raw xAB) = .ok s ∧
      s._object.Modules =
        .entities (xAB.Modules.map fun mo => { _object := mo, _ship := some xAB.Ship }) ∧
      (Ship.toJSON s).1 = xAB ∧
      (Ship.toJSON s).1.Modules =
        (xAB.Modules.map fun mo => ({ _object := mo, _ship := some xAB.Ship } : Module)).map
          Module.toJSON :=
  ship_toJSON_roundtrip exTriv xAB rfl (by intro mo _; rfl)

/-- C2 (evaluation at the failing input): on a module with a blueprint and
no prior modifier, `set('Mass', 5)` succeeds and appends the modifier, but
`get('Mass', true)` then throws a JS `TypeError` instead of returning 5
(`_findModifier` returns the `Modifier` object, which `get` uses as an array
index, so `Modifiers["[object Object]"]` is `undefined` and reading its
`.value` throws); likewise a second `set('Mass', 9)` throws instead of
overwriting the entry in place.  Only the unmodified read
`get('Mass', false)` returns the external base stat. -/
theorem set_then_get_throws :
    Module.set mEng "Mass" 5 = .ok (mEngSet, true) ∧
    Module.get exTriv mEngSet "Mass" true = .error .TypeError ∧
    Module.get exTriv mEngSet "Mass" false = .ok (some 7) ∧
    Module.set mEngSet "Mass" 9 = .error .TypeError :=
  ⟨by rfl, by rfl, by rfl, by rfl⟩

/-- C3: `setSlot` raises `IllegalStateError` whenever the module's `Slot` is
already non-empty (the write-once rule) or no owning ship back-reference is
attached, for every target slot and every behaviour of the externals; the
error is raised before any write, so the wrapped record is unchanged. -/
theorem setSlot_write_once (ext : Externals) (m : Module) (s2 : String)
    (h : m._object.Slot ≠ "" ∨ m._ship = none) :
    Module.setSlot ext m s2 = .error .IllegalStateError := by
  rcases h with h | h
  · cases hs : m._ship with
    | none => simp [Module.setSlot, hs]
    | some t => simp [Module.setSlot, hs, h]
  · simp [Module.setSlot, h]

/-- C3 witness: reassigning the already-assigned module `mAssigned`. -/
theorem setSlot_write_once_witness :
    Module.setSlot exTriv mAssigned "Slot06_Size2" = .error .IllegalStateError :=
  setSlot_write_once exTriv mAssigned "Slot06_Size2" (Or.inl (by decide))

/-- C4 (evaluation at the failing input): a ship holding two internal-slot
modules in collection order `Slot05_Size3`, `Slot01_Size2` gets them back
from `getInternals` in that same (descending) order, although
`"Slot01_Size2"` precedes `"Slot05_Size3"` in ascending slot-name order:
the `ms.sortBy()` call sorts by the module objects themselves, which all
compare equal, so no sorting by slot name happens. -/
theorem getInternals_unsorted_eval :
    (Ship.getInternals exTriv shipAB none false).map (fun m => m._object.Slot) =
      ["Slot05_Size3", "Slot01_Size2"] ∧
    strLt "Slot01_Size2" "Slot05_Size3" = true :=
  ⟨by rfl, by decide⟩

/-- C5 (divergence): `setCoreModules` recursively calls
`this.setCoreModules([module])` for each element, so on any non-empty input
the recursion never returns — no finite call-stack budget suffices.  The
claimed per-element boolean array is never produced. -/
theorem setCoreModules_diverges :
    ∀ (fuel : Nat) (m : ModuleLike) (rest : List ModuleLike),
      setCoreModulesFuel fuel (m :: rest) = none := by
  intro fuel
  induction fuel with
  | zero => intro m rest; rfl
  | succ fuel ih =>
    intro m rest
    simp [setCoreModulesFuel, mapCallback, ih m [], Option.bind]

/-- C6: constructing a `Module` with no build-from input completes without
error and wraps the empty placeholder record: `Slot = ""`, `Item = ""`,
`On = false`, `Priority = 0`, no `Engineering` block (via the spec-modelled
`Module.clearObject`). -/
theorem module_construct_empty (ext : Externals) (ship : Option String) :
    Module.construct ext none ship =
      .ok { _object := { Slot := "", On := false, Item := "", Priority := 0, Engineering := none },
            _ship := ship } :=
  rfl

/-- C7: on a module with an attached ship, an empty slot and a non-empty
item, a fit-checker rejection makes `setSlot` return normally with the slot
still unassigned (no error, no write); when the checker accepts, or when the
item is empty, the slot is assigned. -/
theorem setSlot_fit_policy (ext : Externals) (m : Module) (shipType slot : String)
    (hship : m._ship = some shipType) (hslot : m._object.Slot = "") :
    (m._object.Item ≠ "" → ext.itemFitsSlot m._object.Item shipType slot = false →
      Module.setSlot ext m slot = .ok m) ∧
    ((m._object.Item = "" ∨ ext.itemFitsSlot m._object.Item shipType slot = true) →
      Module.setSlot ext m slot =
        .ok { m with _object := { m._object with Slot := slot } }) := by
  constructor
  · intro hitem hfit
    simp [Module.setSlot, hship, hslot, hitem, hfit]
  · intro h
    rcases h with h | h
    · simp [Module.setSlot, hship, hslot, h]
    · simp [Module.setSlot, hship, hslot, h]

/-- C7 witness: with the rejecting fit checker `exNoFit`, assigning
`Slot03_Size3` to the unassigned module `mUnassigned` is a silent no-op. -/
theorem setSlot_fit_policy_witness :
    Module.setSlot exNoFit mUnassigned "Slot03_Size3" = .ok mUnassigned :=
  (setSlot_fit_policy exNoFit mUnassigned "anaconda" "Slot03_Size3" rfl rfl).1 (by decide) rfl

/-- C8: `isOnSlot` over the three descriptor shapes.  With an empty `Slot`
the null sentinel (`none`) is returned for every shape; with an assigned
slot, an exact string matches by equality, a pattern by its match test, and
a list exactly when some element matches. -/
theorem isOnSlot_shapes (m : Module) (s : String) (test : String → Bool)
    (l : List SlotDescr) :
    (Module.isOnSlot m (.exact s) =
      if m._object.Slot = "" then none else some (m._object.Slot == s)) ∧
    (Module.isOnSlot m (.pattern test) =
      if m._object.Slot = "" then none else some (test m._object.Slot)) ∧
    (Module.isOnSlot m (.anyOf l) =
      if m._object.Slot = "" then none
      else some (l.any fun d => matchDescr m._object.Slot d)) := by
  by_cases h : m._object.Slot = "" <;>
    simp [Module.isOnSlot, h, matchDescr, matchAny_eq_any]

/-- C9: building a `Module` from an existing `Module` entity never consults
the external validator: `cloneModuleToJSON` takes the entity's `toJSON()`
record directly, so construction and `update` succeed for EVERY behaviour of
the externals (the theorem quantifies over `ext`, including validators that
reject everything) and never raise an `ImportExportError`. -/
theorem module_from_module_skips_validation (ext : Externals) (m m0 : Module)
    (ship : Option String) (keep : Option (List String)) :
    cloneModuleToJSON ext (.module m) = .ok (Module.toJSON m) ∧
    Module.construct ext (some (.module m)) ship =
      .ok { _object := Module.toJSON m, _ship := ship } ∧
    (∃ m1, Module.update ext m0 (.module m) keep = .ok m1) :=
  ⟨rfl, rfl, ⟨_, rfl⟩⟩

/-- C10: `Ship.toJSON` restores the `Modules` field it temporarily
overwrites, leaving the entity exactly as it was — same `Module` entities in
the same order, all other document fields and the runtime state untouched —
while the returned record carries each owned entity's own `toJSON()`. -/
theorem ship_toJSON_frame (s : Ship) (ms : List Module)
    (h : s._object.Modules = .entities ms) :
    (Ship.toJSON s).2 = s ∧
    (Ship.toJSON s).1.Modules = ms.map Module.toJSON ∧
    (Ship.toJSON s).1.Ship = s._object.Ship ∧
    (Ship.toJSON s).1.ShipName = s._object.ShipName ∧
    (Ship.toJSON s).1.ShipIdent = s._object.ShipIdent ∧
    (Ship.toJSON s).2.state = s.state := by
  cases s with
  | mk ob st =>
    cases ob
    simp_all [Ship.toJSON, ModulesField.toJSONList]

/-- C10 witness: the frame property evaluated on the concrete ship
`shipAB`. -/
theorem ship_toJSON_frame_witness :
    (Ship.toJSON shipAB).2 = shipAB ∧
    (Ship.toJSON shipAB).1.Modules = [mA, mB].map Module.toJSON ∧
    (Ship.toJSON shipAB).1.Ship = shipAB._object.Ship ∧
    (Ship.toJSON shipAB).1.ShipName = shipAB._object.ShipName ∧
    (Ship.toJSON shipAB).1.ShipIdent = shipAB._object.ShipIdent ∧
    (Ship.toJSON shipAB).2.state = shipAB.state :=
  ship_toJSON_frame shipAB [mA, mB] rfl

end EDForge
